import Mathlib

/-!
Verification of the data-normalization layer `hnio.py` of the pathways-analysis
repository (HotNet2 I/O).  Files are modelled as lists of lines (strings without
their trailing newline); Python dicts and sets are modelled as association lists
and duplicate-free lists; fallible code returns `Except String`.  String
primitives (split, strip, startswith, endswith, int conversion) are implemented
structurally over character lists so that every definition evaluates inside the
kernel.
-/

namespace Hnio

/-- Mutation-type constants (SNV, INACTIVE_SNV, AMP, DEL) from constants.py. -/
inductive MutType where
  | SNV
  | INACTIVE_SNV
  | AMP
  | DEL
deriving DecidableEq, Repr

/-- The Mutation record: sample ID, gene name, mutation type. -/
structure Mutation where
  sample : String
  gene : String
  mut_type : MutType
deriving DecidableEq, Repr

/-- The Fusion record: sample ID and a pair of gene names. -/
structure Fusion where
  sample : String
  genes : String × String
deriving DecidableEq, Repr

/-- The whitespace class of Python `str.split()` / `str.strip()`
as used by these tab-separated files. -/
def isWs (c : Char) : Bool :=
  c == ' ' || c == '\t' || c == '\n' || c == '\r'

/-- Split a character list at every separator selected by `p`, keeping empty
pieces: the semantics of Python `str.split(sep)` with an explicit separator. -/
def splitCharsOn (p : Char → Bool) : List Char → List (List Char)
  | [] => [[]]
  | c :: rest =>
    match splitCharsOn p rest with
    | [] => [[]]
    | h :: t => if p c then [] :: h :: t else (c :: h) :: t

/-- Python `str.split("\t")`: split on tab, keeping empty pieces. -/
def pySplitTab (s : String) : List String :=
  (splitCharsOn (fun c => c == '\t') s.data).map (fun l => (⟨l⟩ : String))

/-- Python `str.split()` with no argument: split on whitespace runs,
dropping empty pieces. -/
def pySplit (s : String) : List String :=
  ((splitCharsOn isWs s.data).map (fun l => (⟨l⟩ : String))).filter (fun t => t ≠ "")

/-- Python `str.rstrip()`: drop trailing whitespace. -/
def rstrip (s : String) : String :=
  ⟨(s.data.reverse.dropWhile Char.isWhitespace).reverse⟩

/-- Python `str.strip()`: drop leading and trailing whitespace. -/
def pyStrip (s : String) : String :=
  ⟨((s.data.dropWhile Char.isWhitespace).reverse.dropWhile Char.isWhitespace).reverse⟩

/-- Python `l.startswith("#")`. -/
def startsHash (s : String) : Bool :=
  match s.data with
  | [] => false
  | c :: _ => c == '#'

/-- Python `s.endswith(suffixStr)`. -/
def strEndsWith (s suffixStr : String) : Bool :=
  suffixStr.data.isSuffixOf s.data

/-- Python truthiness of an optional whitelist: `None` and the empty
set are both falsy; a non-empty set is truthy. -/
def pyTruthy (wl : Option (List String)) : Bool :=
  match wl with
  | none => false
  | some l => !l.isEmpty

/-- `include(item, whitelist)` from hnio.py (named `include'` because `include`
is a Lean keyword): `item in whitelist if whitelist else True`. -/
def include' (item : String) (whitelist : Option (List String)) : Bool :=
  if pyTruthy whitelist then (whitelist.getD []).contains item else true

/-- The comment-stripped, tab-split rows of a file whose lines are first
`rstrip`-ed: shared shape of `load_snvs` and `load_cnas`. -/
def tabRows (lines : List String) : List (List String) :=
  (lines.filter (fun l => !startsHash l)).map (fun l => pySplitTab (rstrip l))

/-- The comment-stripped, whitespace-split rows of a file: shared shape of
`load_inactivating_snvs` and `load_fusions`. -/
def wsRows (lines : List String) : List (List String) :=
  (lines.filter (fun l => !startsHash l)).map pySplit

/-- `load_snvs`: sample in column 0, mutated genes in the remaining columns;
one `Mutation` with type SNV per whitelist-passing gene of each
whitelist-passing sample.  (Rows are non-empty because splitting always
returns at least one piece, so `arr[0]` is modelled by `headD`.) -/
def load_snvs (lines : List String) (gene_wlst sample_wlst : Option (List String)) :
    List Mutation :=
  ((tabRows lines).filter (fun arr => include' (arr.headD "") sample_wlst)).flatMap
    (fun arr => ((arr.drop 1).filter (fun g => include' g gene_wlst)).map
      (fun g => ⟨arr.headD "", g, MutType.SNV⟩))

/-- `load_inactivating_snvs`: gene in column 0, sample in column 1 (reversed
from the SNV layout), type INACTIVE_SNV.  Well-formed rows (at least two
columns) are assumed, as in the source, where a shorter row would raise
IndexError; `getD` stands in for the indexing. -/
def load_inactivating_snvs (lines : List String)
    (gene_wlst sample_wlst : Option (List String)) : List Mutation :=
  ((wsRows lines).filter
      (fun arr => include' (arr.getD 1 "") sample_wlst && include' (arr.getD 0 "") gene_wlst)).map
    (fun arr => ⟨arr.getD 1 "", arr.getD 0 "", MutType.INACTIVE_SNV⟩)

/-- `cna.split("(")[0]`: the gene name of a CNA token, i.e. everything before
the first opening parenthesis. -/
def cnaGene (cna : String) : String :=
  ⟨cna.data.takeWhile (fun c => c ≠ '(')⟩

/-- `get_mut_type`: suffix `"(A)"` means AMP, `"(D)"` means DEL, anything
else raises ValueError. -/
def get_mut_type (cna : String) : Except String MutType :=
  if strEndsWith cna "(A)" then Except.ok MutType.AMP
  else if strEndsWith cna "(D)" then Except.ok MutType.DEL
  else Except.error ("Unknown CNA type in " ++ cna)

/-- `load_cnas`: sample in column 0, `gene(A)` / `gene(D)` tokens in the
remaining columns.  The gene whitelist is tested on the suffix-stripped name;
`get_mut_type` is evaluated, in row order, only on tokens passing the filters,
and its first failure aborts the whole parse. -/
def load_cnas (lines : List String) (gene_wlst sample_wlst : Option (List String)) :
    Except String (List Mutation) :=
  (((tabRows lines).filter (fun arr => include' (arr.headD "") sample_wlst)).flatMap
      (fun arr => ((arr.drop 1).filter (fun c => include' (cnaGene c) gene_wlst)).map
        (fun c => (arr.headD "", c)))).mapM
    (fun sc => (get_mut_type sc.2).map (fun t => (⟨sc.1, cnaGene sc.2, t⟩ : Mutation)))

/-- The error message raised by `include_fusion` for a half-whitelisted pair
(the source formats `'Genes %s and %s are in a fusion, but one is disallowed
by the gene'whitelist'` with the two gene names). -/
def fusionErrMsg (gene1 gene2 : String) : String :=
  "Genes " ++ gene1 ++ " and " ++ gene2 ++
    " are in a fusion, but one is disallowed by the genewhitelist"

/-- `include_fusion`: a non-matching sample is dropped; without a (truthy) gene
whitelist everything passes; with one, a fusion with both genes outside is
dropped, one with exactly one gene inside raises ValueError, and one with both
genes inside passes. -/
def include_fusion (sample_wlst gene_wlst : Option (List String))
    (sample gene1 gene2 : String) : Except String Bool :=
  if pyTruthy sample_wlst && !((sample_wlst.getD []).contains sample) then
    Except.ok false
  else if !(pyTruthy gene_wlst) then Except.ok true
  else if !((gene_wlst.getD []).contains gene1) && !((gene_wlst.getD []).contains gene2) then
    Except.ok false
  else if ((gene_wlst.getD []).contains gene1 && !((gene_wlst.getD []).contains gene2)) ||
          ((gene_wlst.getD []).contains gene2 && !((gene_wlst.getD []).contains gene1)) then
    Except.error (fusionErrMsg gene1 gene2)
  else Except.ok true

/-- `load_fusions`: whitespace-split rows `sample gene1 gene2` of non-comment
lines, kept when `include_fusion` returns true; its ValueError aborts the
parse.  A row that does not have exactly three columns makes the call
`include_fusion(sample_wlst, gene_wlst, *arr[:4])` raise TypeError in the
source (wrong arity), modelled as an error. -/
def load_fusions (lines : List String) (gene_wlst sample_wlst : Option (List String)) :
    Except String (List Fusion) := do
  let picked ← (wsRows lines).mapM (fun arr =>
    match arr with
    | [s, g1, g2] =>
        (include_fusion sample_wlst gene_wlst s g1 g2).map
          (fun b => if b then some (⟨s, (g1, g2)⟩ : Fusion) else none)
    | _ => Except.error "TypeError: include_fusion received the wrong number of arguments")
  pure (picked.filterMap id)

/-- Numeric value of a digit list (most significant first). -/
def digitsToNat (l : List Char) : Nat :=
  l.foldl (fun acc c => acc * 10 + (c.toNat - 48)) 0

/-- Python `int(s)`: optional surrounding whitespace, optional sign, one or
more decimal digits; anything else raises ValueError. -/
def pyInt (s : String) : Except String Int :=
  let core : List Char → Option Int := fun ds =>
    if ds ≠ [] ∧ ds.all Char.isDigit then some (digitsToNat ds : Int) else none
  let t := (pyStrip s).data
  let n : Option Int :=
    match t with
    | '-' :: ds => (core ds).map Int.neg
    | '+' :: ds => core ds
    | ds => core ds
  match n with
  | some v => Except.ok v
  | none => Except.error ("ValueError: invalid literal for int: " ++ s)

/-- `load_index`: whitespace-split lines `index gene`; returns the association
list of `(int(arr[0]), arr[1])` pairs the source feeds to `dict(...)` (on
duplicate indices the last pair wins in the dict).  There is no comment
skipping: `int("#")` on a comment line raises ValueError. -/
def load_index (lines : List String) : Except String (List (Int × String)) :=
  (lines.map pySplit).mapM
    (fun arr => (pyInt (arr.headD "")).map (fun n => (n, arr.getD 1 "")))

/-- Python `index2gene[k]`: association-list lookup (last binding wins,
as in a dict built by successive writes), raising KeyError when absent. -/
def dictFind (d : List (Nat × String)) (k : Nat) : Except String String :=
  match d.reverse.find? (fun p => p.1 == k) with
  | some p => Except.ok p.2
  | none => Except.error ("KeyError: " ++ Nat.repr k)

/-- `k in index2gene`: whether a dict built from these write pairs has the
key `k`. -/
def hasKey (d : List (Nat × String)) (k : Nat) : Bool :=
  (d.reverse.find? (fun p => p.1 == k)).isSome

/-- Total variant of `dictFind`, returning `""` for a missing key;
it agrees with `dictFind` whenever the key is present. -/
def dictVal (d : List (Nat × String)) (k : Nat) : String :=
  match d.reverse.find? (fun p => p.1 == k) with
  | some p => p.2
  | none => ""

/-- The generator inside `load_ppi_edges`'s `set(...)`: translate each edge's
two indices in order, a KeyError aborting everything. -/
def translateEdges (index2gene : List (Nat × String)) :
    List (Nat × Nat) → Except String (List (String × String))
  | [] => Except.ok []
  | e :: es => do
    let g1 ← dictFind index2gene e.1
    let g2 ← dictFind index2gene e.2
    let rest ← translateEdges index2gene es
    pure ((g1, g2) :: rest)

/-- `load_ppi_edges`: translate each edge's two gene indices through
`index2gene` (a missing index raises KeyError, aborting the whole call) and
return the set of gene-name pairs.  Edge rows are modelled already split and
int-converted; the set is modelled as the duplicate-free list of
translations. -/
def load_ppi_edges (edges : List (Nat × Nat)) (index2gene : List (Nat × String)) :
    Except String (List (String × String)) :=
  (translateEdges index2gene edges).map List.dedup

/-- `load_gene_order`: every line (comment lines included — there is no
comment skipping) is whitespace-split into the gene list of chromosome `cid`,
the 0-based line number.  Returns the `gene2chromo` update pairs in insertion
order (dict semantics: the last pair for a gene wins) and `chromo2genes`. -/
def load_gene_order (lines : List String) :
    (List (String × Nat)) × (List (Nat × List String)) :=
  let rows := lines.map pySplit
  ((rows.enum.map (fun r => r.2.map (fun g => (g, r.1)))).flatten,
   rows.enum)

/-- Decimal part of Python `float(s)`: digits with an optional single point,
at least one digit in total; returns the value and the remaining characters. -/
def parseDec (cs : List Char) : Option (ℚ × List Char) :=
  let intPart := cs.takeWhile Char.isDigit
  let rest := cs.dropWhile Char.isDigit
  match rest with
  | '.' :: rest2 =>
      let fracPart := rest2.takeWhile Char.isDigit
      let rest3 := rest2.dropWhile Char.isDigit
      if intPart = [] ∧ fracPart = [] then none
      else some ((digitsToNat intPart : ℚ) +
                 (digitsToNat fracPart : ℚ) / ((10 : ℚ) ^ fracPart.length), rest3)
  | _ => if intPart = [] then none else some ((digitsToNat intPart : ℚ), rest)

/-- Exponent part of Python `float(s)`: an optional `e`/`E`, optional sign and
digits; a present `e` with malformed digits fails the whole parse. -/
def parseExp (cs : List Char) : Option (Int × List Char) :=
  let digitsOf : List Char → Option (Int × List Char) := fun ds =>
    let dig := ds.takeWhile Char.isDigit
    if dig = [] then none else some ((digitsToNat dig : Int), ds.dropWhile Char.isDigit)
  match cs with
  | 'e' :: rest | 'E' :: rest =>
    (match rest with
     | '-' :: ds => (digitsOf ds).map (fun p => (-p.1, p.2))
     | '+' :: ds => digitsOf ds
     | ds => digitsOf ds)
  | _ => some (0, cs)

/-- Python `float(s)` on decimal notation: optional surrounding whitespace and
sign, decimal digits with optional point and exponent.  Finite IEEE doubles
are modelled as exact rationals. -/
def pyFloat (s : String) : Except String ℚ :=
  let t := (pyStrip s).data
  let unsigned : List Char → Option ℚ := fun cs => do
    let (m, r) ← parseDec cs
    let (e, r2) ← parseExp r
    if r2 = [] then some (m * (10 : ℚ) ^ (e : ℤ)) else none
  let v : Option ℚ :=
    match t with
    | '-' :: cs => (unsigned cs).map Neg.neg
    | '+' :: cs => unsigned cs
    | cs => unsigned cs
  match v with
  | some q => Except.ok q
  | none => Except.error ("ValueError: could not convert string to float: " ++ s)

/-- `load_heat_tsv`: whitespace-split lines `gene score`; the association list
of `(arr[0], float(arr[1]))` pairs fed to `dict(...)`.  There is no comment
skipping: `float` on the second token of a comment line raises ValueError. -/
def load_heat_tsv (lines : List String) : Except String (List (String × ℚ)) :=
  (lines.map pySplit).mapM
    (fun arr => (pyFloat (arr.getD 1 "")).map (fun q => (arr.headD "", q)))

/-- `load_samples`: the set of first whitespace-split tokens of the
`rstrip`-ed lines. -/
def load_samples (lines : List String) : List String :=
  (lines.map (fun l => (pySplit (rstrip l)).headD "")).dedup

/-- `load_genes`: the set of stripped lines. -/
def load_genes (lines : List String) : List String :=
  (lines.map pyStrip).dedup

/-- `d[g]` on a defaultdict with default `v`: the recorded score when `g` has
one, else `v`. -/
def dictGetD (d : List (String × ℚ)) (g : String) (v : ℚ) : ℚ :=
  match d.find? (fun p => p.1 == g) with
  | some p => p.2
  | none => v

/-- The merge step of `load_oncodrive_data`, over the three parsed per-source
score tables (the update pairs written into the three `defaultdict(lambda: 1)`
maps; the per-file column extraction that produces them is plain I/O).  The
gene set is the union of the three key sets, and each gene's entry reads every
source through its defaultdict, so a source missing the gene contributes the
default score 1. -/
def load_oncodrive_data (gene2fm gene2cis_amp gene2cis_del : List (String × ℚ)) :
    List (String × (ℚ × ℚ × ℚ)) :=
  let genes := ((gene2cis_del.map Prod.fst) ++ (gene2cis_amp.map Prod.fst) ++
                (gene2fm.map Prod.fst)).dedup
  genes.map (fun g =>
    (g, (dictGetD gene2cis_del g 1, dictGetD gene2cis_amp g 1, dictGetD gene2fm g 1)))

/-- The columnar network bundle read by `load_hdf5`, after its string fields
are decoded: node-name list, network name, edge list (gene-name pairs) and the
named square matrices (dense 2-D arrays as row lists). -/
structure HBundle where
  nodes : List String
  network_name : String
  edges : List (String × String)
  matrices : List (String × List (List ℚ))
deriving DecidableEq, Repr

/-- `np.shape(m)[0]` of a dense 2-D array. -/
def npShape0 (m : List (List ℚ)) : Nat := m.length

/-- `np.shape(m)[1]` of a dense 2-D array. -/
def npShape1 (m : List (List ℚ)) : Nat := (m.headD []).length

/-- `H[infmat_name]`: look the requested matrix up in the bundle, raising
KeyError when absent. -/
def matLookup (H : HBundle) (infmat_name : String) : Except String (List (List ℚ)) :=
  match H.matrices.find? (fun p => p.1 == infmat_name) with
  | some p => Except.ok p.2
  | none => Except.error ("KeyError: " ++ infmat_name)

/-- An `nx.Graph` as far as this layer observes it: its node set (every
endpoint of an added edge, first occurrence order) and its edge list. -/
structure NxGraph where
  nodes : List String
  edges : List (String × String)
deriving DecidableEq, Repr

/-- `nx.Graph(); G.add_edges_from(edges)`: the nodes are exactly the
endpoints of the given edges. -/
def nx_graph_from_edges (es : List (String × String)) : NxGraph :=
  ⟨(es.flatMap (fun e => [e.1, e.2])).dedup, es⟩

/-- The result tuple of `load_network`: influence matrix, indexToGene,
interaction graph and network name. -/
structure NetworkResult where
  PPR : List (List ℚ)
  indexToGene : List (Nat × String)
  G : NxGraph
  network_name : String
deriving DecidableEq, Repr

/-- `load_network`: extract the named matrix, build
`indexToGene = dict(zip(range(shape(PPR)[0]), nodes))` (zip truncates to the
shorter of the two) and the graph from the edge list; no validation of matrix
shape, node count or edge endpoints is performed. -/
def load_network (H : HBundle) (infmat_name : String) : Except String NetworkResult := do
  let PPR ← matLookup H infmat_name
  pure ⟨PPR, (List.range (npShape0 PPR)).zip H.nodes, nx_graph_from_edges H.edges,
        H.network_name⟩

/-- The `parameters` object of a heat JSON file as `load_heat_file` reads it.
The `*_file` fields are paths whose files are modelled by their content lines;
`none` is a falsy / absent parameter ("use default"). -/
structure HeatParams where
  name : String
  heat_fn : Option String
  sample_file : Option (List String)
  gene_file : Option (List String)
  snv_file : Option (List String)
  cna_file : Option (List String)
  sample_type_file : Option (List String)
deriving DecidableEq, Repr

/-- A parsed heat JSON file: `{"heat": {gene: score}, "parameters": {...}}`. -/
structure JsonHeatBlob where
  heat : List (String × ℚ)
  parameters : HeatParams
deriving DecidableEq, Repr

/-- The JSON branch of `load_heat_file` (the TSV branch is
`load_heat_tsv` plus a name derived from the path).  When the parameters name
the mutation heat function, SNVs and CNAs are loaded under the shared
whitelists; when a sample-type file is (truthily) named, the source reads
`heat_parameters['sample_type_file']` and writes `output['sampleToType']` —
both names are undefined there, so Python raises NameError; otherwise every
observed sample (the sample whitelist if truthy, else the samples of the
loaded mutations) is mapped to the fixed type "Cancer". -/
def load_heat_file (obj : JsonHeatBlob) :
    Except String (List (String × ℚ) × String ×
                   (List Mutation × List Mutation × List (String × String))) := do
  let hp := obj.parameters
  if hp.heat_fn == some "load_mutation_heat" then do
    let samples : Option (List String) := hp.sample_file.map load_samples
    let genes : Option (List String) := hp.gene_file.map load_genes
    let snvs := match hp.snv_file with
      | some ls => load_snvs ls genes samples
      | none => []
    let cnas ← match hp.cna_file with
      | some ls => load_cnas ls genes samples
      | none => pure []
    match hp.sample_type_file with
    | some _ => Except.error "NameError: name heat_parameters is not defined"
    | none =>
      let samples2 := if pyTruthy samples then samples.getD [] else
        ((snvs.map Mutation.sample) ++ (cnas.map Mutation.sample)).dedup
      pure (obj.heat, hp.name, (snvs, cnas, samples2.map (fun s => (s, "Cancer"))))
  else
    pure (obj.heat, hp.name, ([], [], []))

/-- JSON values, as far as the heat files use them.  `json.dump` followed by
`json.load` is the identity on this domain: Python 3 serializes a finite float
with its shortest round-tripping repr, modelled here by exact rationals. -/
inductive Json where
  | num : ℚ → Json
  | str : String → Json
  | obj : List (String × Json) → Json

/-- `blob[key]` on a parsed JSON object (keys of a parsed object are unique). -/
def jsonGet (blob : Json) (key : String) : Except String Json :=
  match blob with
  | Json.obj kvs =>
    match kvs.find? (fun p => p.1 == key) with
    | some p => Except.ok p.2
    | none => Except.error ("KeyError: " ++ key)
  | _ => Except.error "TypeError: not a JSON object"

/-- `load_heat_json`: return `blob["heat"]` and `blob["parameters"]`. -/
def load_heat_json (blob : Json) : Except String (Json × Json) := do
  let h ← jsonGet blob "heat"
  let p ← jsonGet blob "parameters"
  pure (h, p)

/-- A GeneHeatMap as a JSON object: each gene maps to its score. -/
def heat_to_json (heat : List (String × ℚ)) : Json :=
  Json.obj (heat.map (fun p => (p.1, Json.num p.2)))

/-- The heat JSON value `output_hotnet2_run` writes when JSON heat was not
supplied: `{"heat": heat, "parameters": {"heat_file": heat_file}}`. -/
def output_heat_dict (heat : List (String × ℚ)) (heat_file : String) : Json :=
  Json.obj [("heat", heat_to_json heat),
            ("parameters", Json.obj [("heat_file", Json.str heat_file)])]

/-- The gene-to-score entries of a JSON heat object. -/
def json_heat_entries (j : Json) : List (String × ℚ) :=
  match j with
  | Json.obj kvs => kvs.filterMap (fun p =>
      match p.2 with
      | Json.num q => some (p.1, q)
      | _ => none)
  | _ => []

end Hnio

deriving instance DecidableEq for Except

namespace Hnio

/-- A `None` whitelist accepts everything. -/
theorem include'_none (x : String) : include' x none = true := rfl

/-- An empty whitelist is falsy in Python, so it also accepts everything. -/
theorem include'_some_nil (x : String) : include' x (some []) = true := rfl

/-- C1.  The claim that an empty whitelist yields an empty result is false:
with the empty gene whitelist (or the empty sample whitelist) `load_snvs`
still returns the full, unfiltered mutation list, because the source tests
`if whitelist` and an empty set is falsy. -/
theorem c1_empty_whitelist_not_empty_result :
    load_snvs ["S1\tG1"] (some []) none = [⟨"S1", "G1", MutType.SNV⟩] ∧
    load_snvs ["S1\tG1"] none (some []) = [⟨"S1", "G1", MutType.SNV⟩] ∧
    load_snvs ["S1\tG1"] (some []) none ≠ [] := by
  refine ⟨by decide, by decide, by decide⟩

/-- C1 (amended).  For the whitelist-filtered parsers (`load_snvs`,
`load_inactivating_snvs`, `load_cnas`, `load_fusions`) a `None` whitelist
means no filtering, and an *empty* whitelist behaves identically to `None`
(no filtering, not an empty result): `include` accepts every item under
either, each parser returns the same value under `some []` as under `none`
in each whitelist position, and with both whitelists `None` the parsers
return the unfiltered parse of every non-comment line. -/
theorem c1_whitelist_none_empty_no_filtering :
    (∀ x : String, include' x none = true ∧ include' x (some []) = true) ∧
    (∀ lines gw sw, load_snvs lines (some []) sw = load_snvs lines none sw ∧
        load_snvs lines gw (some []) = load_snvs lines gw none) ∧
    (∀ lines gw sw,
        load_inactivating_snvs lines (some []) sw = load_inactivating_snvs lines none sw ∧
        load_inactivating_snvs lines gw (some []) = load_inactivating_snvs lines gw none) ∧
    (∀ lines gw sw, load_cnas lines (some []) sw = load_cnas lines none sw ∧
        load_cnas lines gw (some []) = load_cnas lines gw none) ∧
    (∀ lines gw sw, load_fusions lines (some []) sw = load_fusions lines none sw ∧
        load_fusions lines gw (some []) = load_fusions lines gw none) ∧
    (∀ lines, load_snvs lines none none =
        (tabRows lines).flatMap
          (fun arr => (arr.drop 1).map (fun g => ⟨arr.headD "", g, MutType.SNV⟩))) ∧
    (∀ lines, load_cnas lines none none =
        ((tabRows lines).flatMap
            (fun arr => (arr.drop 1).map (fun c => (arr.headD "", c)))).mapM
          (fun sc => (get_mut_type sc.2).map
            (fun t => (⟨sc.1, cnaGene sc.2, t⟩ : Mutation)))) ∧
    (∀ s g1 g2, include_fusion none none s g1 g2 = Except.ok true) := by
  refine ⟨fun x => ⟨rfl, rfl⟩, fun lines gw sw => ⟨rfl, rfl⟩, fun lines gw sw => ⟨rfl, rfl⟩,
    fun lines gw sw => ⟨rfl, rfl⟩, fun lines gw sw => ⟨rfl, rfl⟩, ?_, ?_, fun s g1 g2 => rfl⟩
  · intro lines
    simp [load_snvs, include'_none]
  · intro lines
    simp [load_cnas, include'_none]

/-- C2.  Fusion whitelist rule: with a gene whitelist, a fusion with exactly
one whitelisted gene raises the ValueError, one with both genes whitelisted is
included, the whitelist `{A, B}` accepts the fusion `(A, B)`, and with no gene
whitelist nothing is raised; `load_fusions` propagates all of this. -/
theorem c2_fusion_whitelist_rule :
    (∀ (w : List String) (s g1 g2 : String), w.contains g1 = true → w.contains g2 = false →
        include_fusion none (some w) s g1 g2 = Except.error (fusionErrMsg g1 g2)) ∧
    (∀ (w : List String) (s g1 g2 : String), w.contains g1 = false → w.contains g2 = true →
        include_fusion none (some w) s g1 g2 = Except.error (fusionErrMsg g1 g2)) ∧
    (∀ (w : List String) (s g1 g2 : String), w.contains g1 = true → w.contains g2 = true →
        include_fusion none (some w) s g1 g2 = Except.ok true) ∧
    (∀ s g1 g2 : String, include_fusion none (some [g1, g2]) s g1 g2 = Except.ok true) ∧
    (∀ s g1 g2 : String, include_fusion none none s g1 g2 = Except.ok true) ∧
    load_fusions ["S1\tA\tB"] (some ["A"]) none = Except.error (fusionErrMsg "A" "B") ∧
    load_fusions ["S1\tA\tB"] (some ["A", "B"]) none = Except.ok [⟨"S1", ("A", "B")⟩] ∧
    load_fusions ["S1\tA\tB"] none none = Except.ok [⟨"S1", ("A", "B")⟩] := by
  refine ⟨?_, ?_, ?_, ?_, fun s g1 g2 => rfl, by decide, by decide, by decide⟩
  · intro w s g1 g2 h1 h2
    match w with
    | [] => simp at h1
    | a :: l =>
      simp at h1 h2
      simp only [include_fusion, pyTruthy]
      split_ifs <;> simp_all
  · intro w s g1 g2 h1 h2
    match w with
    | [] => simp at h2
    | a :: l =>
      simp at h1 h2
      simp only [include_fusion, pyTruthy]
      split_ifs <;> simp_all
  · intro w s g1 g2 h1 h2
    match w with
    | [] => simp at h1
    | a :: l =>
      simp at h1 h2
      simp only [include_fusion, pyTruthy]
      split_ifs <;> simp_all
  · intro s g1 g2
    simp [include_fusion, pyTruthy, List.contains_cons]

/-- C2 witness: the general parts applied to the whitelist `["A"]` and
the fusion `("S1", "A", "B")`. -/
theorem c2_fusion_whitelist_rule_witness :
    include_fusion none (some ["A"]) "S1" "A" "B" = Except.error (fusionErrMsg "A" "B") ∧
    include_fusion none (some ["A", "B"]) "S1" "A" "B" = Except.ok true :=
  ⟨c2_fusion_whitelist_rule.1 ["A"] "S1" "A" "B" (by decide) (by decide),
   c2_fusion_whitelist_rule.2.2.1 ["A", "B"] "S1" "A" "B" (by decide) (by decide)⟩

/-- C6.  CNA parsing: the line `"S1\tG1(A)\tG2(D)"` parses to an AMP and a
DEL `Mutation` with the suffixes stripped; any token ending in neither
`"(A)"` nor `"(D)"` makes `get_mut_type` raise ValueError, and such a token
(e.g. `"G3(X)"`) aborts `load_cnas`. -/
theorem c6_cna_suffix_rule :
    load_cnas ["S1\tG1(A)\tG2(D)"] none none =
      Except.ok [⟨"S1", "G1", MutType.AMP⟩, ⟨"S1", "G2", MutType.DEL⟩] ∧
    (∀ cna : String, strEndsWith cna "(A)" = false → strEndsWith cna "(D)" = false →
        get_mut_type cna = Except.error ("Unknown CNA type in " ++ cna)) ∧
    load_cnas ["S1\tG3(X)"] none none =
      Except.error ("Unknown CNA type in G3(X)") := by
  refine ⟨by decide, ?_, by decide⟩
  intro cna h1 h2
  simp [get_mut_type, h1, h2]

/-- C6 witness: the general ValueError clause applied to the token
`"G3(X)"`. -/
theorem c6_cna_suffix_rule_witness :
    get_mut_type "G3(X)" = Except.error ("Unknown CNA type in G3(X)") :=
  c6_cna_suffix_rule.2.1 "G3(X)" (by decide) (by decide)

/-- C9.  The claim that every raw-format parser skips lines beginning with
`"#"` is false for `load_index`: there is no comment filter, so `int("#")`
raises ValueError on a comment line instead of the line being skipped (a
skipping parser would have returned the second line's entry). -/
theorem c9_load_index_comment_error :
    load_index ["# comment", "0 g0"] =
      Except.error ("ValueError: invalid literal for int: #") := by decide

/-- C9 (amended).  The mutation parsers (`load_snvs`,
`load_inactivating_snvs`, `load_cnas`, `load_fusions`) do skip lines
beginning with `"#"`, but the raw-format parsers `load_index`,
`load_heat_tsv` and `load_gene_order` do not: the first two fail on such a
line with ValueError and `load_gene_order` parses it as gene data. -/
theorem c9_comment_skipping :
    (∀ (l : String) lines gw sw, startsHash l = true →
        load_snvs (l :: lines) gw sw = load_snvs lines gw sw ∧
        load_inactivating_snvs (l :: lines) gw sw = load_inactivating_snvs lines gw sw ∧
        load_cnas (l :: lines) gw sw = load_cnas lines gw sw ∧
        load_fusions (l :: lines) gw sw = load_fusions lines gw sw) ∧
    load_index ["# c", "0 g0"] = Except.error ("ValueError: invalid literal for int: #") ∧
    load_heat_tsv ["# c"] =
      Except.error ("ValueError: could not convert string to float: c") ∧
    load_gene_order ["# c"] = ([("#", 0), ("c", 0)], [(0, ["#", "c"])]) := by
  refine ⟨?_, by decide, by decide, by decide⟩
  intro l lines gw sw h
  refine ⟨?_, ?_, ?_, ?_⟩ <;>
    simp [load_snvs, load_inactivating_snvs, load_cnas, load_fusions, tabRows, wsRows,
      List.filter_cons, h]

/-- C9 witness: the comment-skipping clause applied to the comment line
`"#x"` in front of an SNV file. -/
theorem c9_comment_skipping_witness :
    startsHash "#x" = true ∧
    load_snvs ["#x", "S1\tG1"] none none = load_snvs ["S1\tG1"] none none :=
  ⟨by decide, (c9_comment_skipping.1 "#x" ["S1\tG1"] none none (by decide)).1⟩

/-- `Except` bind on a success. -/
theorem except_bind_ok {α β ε : Type} (a : α) (f : α → Except ε β) :
    ((Except.ok a : Except ε α) >>= f) = f a := rfl

/-- `Except` bind on a failure. -/
theorem except_bind_error {α β ε : Type} (e : ε) (f : α → Except ε β) :
    ((Except.error e : Except ε α) >>= f) = Except.error e := rfl

/-- `Except` functor map on a success. -/
theorem except_fmap_ok {α β ε : Type} (a : α) (f : α → β) :
    (f <$> (Except.ok a : Except ε α)) = Except.ok (f a) := rfl

/-- `Except` functor map on a failure. -/
theorem except_fmap_error {α β ε : Type} (e : ε) (f : α → β) :
    (f <$> (Except.error e : Except ε α)) = Except.error e := rfl

/-- `dictFind` succeeds exactly on present keys, returning `dictVal`. -/
theorem dictFind_of_hasKey (d : List (Nat × String)) (k : Nat) :
    (hasKey d k = true → dictFind d k = Except.ok (dictVal d k)) ∧
    (hasKey d k = false → dictFind d k = Except.error ("KeyError: " ++ Nat.repr k)) := by
  unfold hasKey dictFind dictVal
  cases d.reverse.find? (fun p => p.1 == k) <;> simp

/-- A missing key among the referenced indices makes the translation of the
edge list fail. -/
theorem translateEdges_error_of_bad (d : List (Nat × String)) :
    ∀ edges : List (Nat × Nat),
    (∃ e ∈ edges, hasKey d e.1 = false ∨ hasKey d e.2 = false) →
    ∃ msg, translateEdges d edges = Except.error msg := by
  intro edges
  induction edges with
  | nil => intro h; simp at h
  | cons e es ih =>
    intro hbad
    cases hk1 : dictFind d e.1 with
    | error m1 => exact ⟨m1, by simp [translateEdges, hk1, except_bind_error]⟩
    | ok g1 =>
      cases hk2 : dictFind d e.2 with
      | error m2 =>
        exact ⟨m2, by simp [translateEdges, hk1, hk2, except_bind_ok, except_bind_error]⟩
      | ok g2 =>
        rcases hbad with ⟨x, hx, hxbad⟩
        rcases List.mem_cons.mp hx with rfl | hxs
        · rcases hxbad with hb | hb
          · rw [(dictFind_of_hasKey d x.1).2 hb] at hk1
            simp at hk1
          · rw [(dictFind_of_hasKey d x.2).2 hb] at hk2
            simp at hk2
        · rcases ih ⟨x, hxs, hxbad⟩ with ⟨m, hm⟩
          exact ⟨m, by simp [translateEdges, hk1, hk2, hm,
            except_bind_ok, except_bind_error, except_fmap_error]⟩

/-- C10.  `load_ppi_edges` translates every edge when every referenced index
is a key of `index2gene`, returning the set of translated gene-name pairs;
when some edge references a missing index it raises KeyError and returns no
partial result. -/
theorem c10_ppi_edges_lookup :
    ∀ (edges : List (Nat × Nat)) (d : List (Nat × String)),
    ((∀ e ∈ edges, hasKey d e.1 = true ∧ hasKey d e.2 = true) →
        load_ppi_edges edges d =
          Except.ok ((edges.map (fun e => (dictVal d e.1, dictVal d e.2))).dedup)) ∧
    ((∃ e ∈ edges, hasKey d e.1 = false ∨ hasKey d e.2 = false) →
        ∃ msg, load_ppi_edges edges d = Except.error msg) := by
  intro edges d
  constructor
  · intro hall
    suffices h : translateEdges d edges =
        Except.ok (edges.map (fun e => (dictVal d e.1, dictVal d e.2))) by
      simp [load_ppi_edges, h, Except.map]
    induction edges with
    | nil => rfl
    | cons e es ih =>
      have he := hall e (List.mem_cons_self e es)
      have h1 := (dictFind_of_hasKey d e.1).1 he.1
      have h2 := (dictFind_of_hasKey d e.2).1 he.2
      have hrest := ih (fun x hx => hall x (List.mem_cons_of_mem e hx))
      simp [translateEdges, h1, h2, hrest, except_bind_ok, except_fmap_ok]
  · intro hbad
    rcases translateEdges_error_of_bad d edges hbad with ⟨m, hm⟩
    exact ⟨m, by simp [load_ppi_edges, hm, Except.map]⟩

/-- C10 witness: both clauses at a concrete two-entry index. -/
theorem c10_ppi_edges_lookup_witness :
    load_ppi_edges [(0, 1)] [(0, "g0"), (1, "g1")] = Except.ok [("g0", "g1")] ∧
    ∃ msg, load_ppi_edges [(0, 2)] [(0, "g0"), (1, "g1")] = Except.error msg :=
  ⟨by
      have := (c10_ppi_edges_lookup [(0, 1)] [(0, "g0"), (1, "g1")]).1 (by decide)
      simpa using this,
   (c10_ppi_edges_lookup [(0, 2)] [(0, "g0"), (1, "g1")]).2 ⟨(0, 2), by decide⟩⟩

/-- Association-list lookup of a key that is an element of a key-value
pairing of a list containing it. -/
theorem find?_pair_of_mem {v : String → ℚ × ℚ × ℚ} :
    ∀ (l : List String) (g : String), g ∈ l →
    (l.map (fun x => (x, v x))).find? (fun p => p.1 == g) = some (g, v g) := by
  intro l
  induction l with
  | nil => intro g h; simp at h
  | cons a t ih =>
    intro g h
    by_cases hag : a = g
    · subst hag
      simp [List.find?]
    · have hg : g ∈ t := by
        rcases List.mem_cons.mp h with h' | h'
        · exact absurd h'.symm hag
        · exact h'
      have hbeq : (a == g) = false := by simp [hag]
      simpa [List.find?, hbeq] using ih g hg

/-- C5.  The oncodrive merge: three empty sources merge to the empty mapping;
in general the key set of the merged mapping is exactly the union of the three
sources' key sets, the entry of each gene reads the three sources through
their defaultdicts, and a source from which the gene is missing contributes
exactly the default score 1. -/
theorem c5_oncodrive_merge :
    load_oncodrive_data [] [] [] = [] ∧
    (∀ (gene2fm gene2cis_amp gene2cis_del : List (String × ℚ)) (g : String),
      (g ∈ (load_oncodrive_data gene2fm gene2cis_amp gene2cis_del).map Prod.fst ↔
        (g ∈ gene2cis_del.map Prod.fst ∨ g ∈ gene2cis_amp.map Prod.fst ∨
         g ∈ gene2fm.map Prod.fst)) ∧
      ((g ∈ gene2cis_del.map Prod.fst ∨ g ∈ gene2cis_amp.map Prod.fst ∨
        g ∈ gene2fm.map Prod.fst) →
        (load_oncodrive_data gene2fm gene2cis_amp gene2cis_del).find? (fun p => p.1 == g) =
          some (g, (dictGetD gene2cis_del g 1, dictGetD gene2cis_amp g 1,
                    dictGetD gene2fm g 1))) ∧
      (∀ d : List (String × ℚ), g ∉ d.map Prod.fst → dictGetD d g 1 = 1)) := by
  refine ⟨rfl, ?_⟩
  intro fm amp del g
  refine ⟨?_, ?_, ?_⟩
  · have hmapfst : (load_oncodrive_data fm amp del).map Prod.fst =
        ((del.map Prod.fst) ++ (amp.map Prod.fst) ++ (fm.map Prod.fst)).dedup := by
      simp only [load_oncodrive_data, List.map_map]
      rw [show (Prod.fst ∘ fun g : String =>
          (g, dictGetD del g 1, dictGetD amp g 1, dictGetD fm g 1)) = id from rfl, List.map_id]
    rw [hmapfst, List.mem_dedup, List.mem_append, List.mem_append]
    tauto
  · intro hg
    have hg' : g ∈ ((del.map Prod.fst) ++ (amp.map Prod.fst) ++ (fm.map Prod.fst)).dedup := by
      rw [List.mem_dedup, List.mem_append, List.mem_append]
      tauto
    simpa only [load_oncodrive_data] using find?_pair_of_mem _ g hg'
  · intro d hd
    unfold dictGetD
    cases hf : d.find? (fun p => p.1 == g) with
    | none => rfl
    | some p =>
      have hp := List.find?_some hf
      have hmem := List.mem_of_find?_eq_some hf
      exact absurd (List.mem_map.mpr ⟨p, hmem, by simpa using hp⟩) hd

/-- C5 witness: merging one single-gene fm source with two empty sources. -/
theorem c5_oncodrive_merge_witness :
    (load_oncodrive_data [("a", 2)] [] []).find? (fun p => p.1 == "a") =
      some ("a", (dictGetD [] "a" 1, dictGetD [] "a" 1, dictGetD [("a", 2)] "a" 1)) ∧
    dictGetD [] "a" 1 = 1 :=
  ⟨(c5_oncodrive_merge.2 [("a", 2)] [] [] "a").2.1 (Or.inr (Or.inr (by decide))),
   (c5_oncodrive_merge.2 [("a", 2)] [] [] "a").2.2 [] (by decide)⟩

/-- C3.  The claim that the graph's node set equals the GeneIndex value set
is false: a bundle whose gene appears in no edge yields a graph with no nodes
while the GeneIndex maps index 0 to that gene, and no error is raised. -/
theorem c3_graph_nodes_counterexample :
    load_network ⟨["g0"], "net", [], [("PPR", [[1]])]⟩ "PPR" =
      Except.ok ⟨[[1]], [(0, "g0")], ⟨[], []⟩, "net"⟩ ∧
    (⟨[[1]], [(0, "g0")], ⟨[], []⟩, "net"⟩ : NetworkResult).G.nodes ≠
      (⟨[[1]], [(0, "g0")], ⟨[], []⟩, "net"⟩ : NetworkResult).indexToGene.map Prod.snd := by
  exact ⟨by decide, by decide⟩

/-- C3 (amended).  The node set of the graph returned by `load_network` is
exactly the set of endpoints of the bundle's edge list — which need not
coincide with the gene-name value set of the returned GeneIndex, and no
consistency between the two is checked. -/
theorem c3_graph_nodes_are_edge_endpoints :
    ∀ (H : HBundle) (infmat_name : String) (r : NetworkResult),
    load_network H infmat_name = Except.ok r →
    ∀ g : String, g ∈ r.G.nodes ↔ ∃ e ∈ H.edges, g = e.1 ∨ g = e.2 := by
  intro H nm r hok g
  have hG : r.G = nx_graph_from_edges H.edges := by
    unfold load_network at hok
    cases hmat : matLookup H nm with
    | error m =>
      rw [hmat] at hok
      simp [except_bind_error] at hok
    | ok m =>
      rw [hmat] at hok
      simp only [except_bind_ok] at hok
      cases hok
      rfl
  rw [hG]
  simp [nx_graph_from_edges, List.mem_dedup, List.mem_flatMap]

/-- C3 witness: the endpoint characterisation at a concrete bundle whose
edge list is `[("a", "b")]`. -/
theorem c3_graph_nodes_are_edge_endpoints_witness :
    "a" ∈ (⟨[[1]], [(0, "g0")], ⟨["a", "b"], [("a", "b")]⟩, "net"⟩ : NetworkResult).G.nodes ↔
      ∃ e ∈ (⟨["g0"], "net", [("a", "b")], [("PPR", [[1]])]⟩ : HBundle).edges,
        "a" = e.1 ∨ "a" = e.2 :=
  c3_graph_nodes_are_edge_endpoints ⟨["g0"], "net", [("a", "b")], [("PPR", [[1]])]⟩ "PPR"
    ⟨[[1]], [(0, "g0")], ⟨["a", "b"], [("a", "b")]⟩, "net"⟩ (by decide) "a"

/-- C4.  The claim that every loaded bundle has a square matrix, a GeneIndex
of matching size and edge nodes inside the index value set is false: a bundle
with a 1×2 matrix, two nodes and an edge over unknown names loads without any
error, with a 1-entry index. -/
theorem c4_no_validation_counterexample :
    load_network ⟨["g0", "g1"], "net", [("a", "b")], [("PPR", [[0, 1]])]⟩ "PPR" =
      Except.ok ⟨[[0, 1]], [(0, "g0")], ⟨["a", "b"], [("a", "b")]⟩, "net"⟩ ∧
    npShape0 ([[0, 1]] : List (List ℚ)) ≠ npShape1 ([[0, 1]] : List (List ℚ)) ∧
    ([(0, "g0")] : List (Nat × String)).length ≠ npShape1 ([[0, 1]] : List (List ℚ)) ∧
    "a" ∉ ([(0, "g0")] : List (Nat × String)).map Prod.snd := by
  exact ⟨by decide, by decide, by decide, by decide⟩

/-- C4 (amended).  `load_network` performs no validation: whenever the named
matrix is present it succeeds, and the returned GeneIndex has
`min(matrix.shape[0], len(nodes))` entries — equality with both matrix
dimensions and containment of the edge endpoints hold only if the bundle
happens to provide them. -/
theorem c4_index_length_min_no_validation :
    ∀ (H : HBundle) (infmat_name : String) (m : List (List ℚ)),
    matLookup H infmat_name = Except.ok m →
    load_network H infmat_name =
      Except.ok ⟨m, (List.range (npShape0 m)).zip H.nodes, nx_graph_from_edges H.edges,
                 H.network_name⟩ ∧
    ((List.range (npShape0 m)).zip H.nodes).length = min (npShape0 m) H.nodes.length := by
  intro H nm m hm
  refine ⟨?_, ?_⟩
  · unfold load_network
    rw [hm]
    rfl
  · simp [List.length_zip, List.length_range]

/-- C4 witness: the no-validation clause at the 1×2-matrix bundle. -/
theorem c4_index_length_min_no_validation_witness :
    load_network ⟨["g0", "g1"], "net", [("a", "b")], [("PPR", [[0, 1]])]⟩ "PPR" =
      Except.ok ⟨[[0, 1]],
        (List.range (npShape0 ([[0, 1]] : List (List ℚ)))).zip ["g0", "g1"],
        nx_graph_from_edges [("a", "b")], "net"⟩ ∧
    ((List.range (npShape0 ([[0, 1]] : List (List ℚ)))).zip
        (["g0", "g1"] : List String)).length =
      min (npShape0 ([[0, 1]] : List (List ℚ))) (["g0", "g1"] : List String).length :=
  c4_index_length_min_no_validation ⟨["g0", "g1"], "net", [("a", "b")], [("PPR", [[0, 1]])]⟩
    "PPR" [[0, 1]] (by decide)

/-- C7.  `load_heat_file` with mutation-derived heat parameters: when the
parameters name a sample-type file the source raises NameError (it reads the
undefined names `heat_parameters` and `output` instead of `heat_params` /
a sample-type dict), so the mapping is never taken from the file; without a
sample-type file every observed sample is mapped to the fixed type
"Cancer". -/
theorem c7_sample_type_file_nameerror :
    load_heat_file ⟨[("g", 1)], ⟨"hn", some "load_mutation_heat", none, none,
        some ["S1\tG1"], none, some ["S1\tTypeA"]⟩⟩ =
      Except.error "NameError: name heat_parameters is not defined" ∧
    load_heat_file ⟨[("g", 1)], ⟨"hn", some "load_mutation_heat", none, none,
        some ["S1\tG1"], none, none⟩⟩ =
      Except.ok ([("g", 1)], "hn",
        ([⟨"S1", "G1", MutType.SNV⟩], [], [("S1", "Cancer")])) := by
  exact ⟨rfl, rfl⟩

/-- Decoding the gene-to-score entries of an encoded GeneHeatMap is the
identity. -/
theorem json_heat_entries_heat_to_json (heat : List (String × ℚ)) :
    json_heat_entries (heat_to_json heat) = heat := by
  induction heat with
  | nil => rfl
  | cons p t ih =>
    simp only [heat_to_json, json_heat_entries, List.map_cons, List.filterMap_cons] at *
    simpa using ih

/-- C8.  Round trip: the heat JSON value written by `output_hotnet2_run`
(`{"heat": heat, "parameters": {"heat_file": ...}}`, with `json.dump` /
`json.load` exact on this domain) reloads through `load_heat_json` to exactly
the written heat object, whose entries decode to exactly the original
mapping — same key list, exact score equality. -/
theorem c8_heat_json_round_trip :
    ∀ (heat : List (String × ℚ)) (heat_file : String),
    load_heat_json (output_heat_dict heat heat_file) =
      Except.ok (heat_to_json heat, Json.obj [("heat_file", Json.str heat_file)]) ∧
    json_heat_entries (heat_to_json heat) = heat := by
  intro heat heat_file
  exact ⟨rfl, json_heat_entries_heat_to_json heat⟩

end Hnio

